import Mathlib

/-!
Verification development for the ADS1x15 Arduino library.

The embedding follows the two layers of the source:

* `wireUtil<REGTYPE, DATATYPE>` (src/unnamed/part_000, the register access
  engine): register words of width `w` bytes (`w` is `sizeof(DATATYPE)`) are
  modelled as `Nat` values below `2 ^ (8 * w)`; the Wire transport is an
  oracle (`Transport`) supplying the end-of-transmission status, the
  monotonic clock readings, the data-availability count observed at each
  polling iteration, and the stream of bytes delivered by `Wire.read()`
  (an `Int`, since `Wire.read()` returns `-1` when no byte is buffered).
  Bus traffic and handler invocations are recorded as an `Event` trace.
  The unbounded polling loops of the source are given explicit fuel; a
  result of `none` means the loop was still spinning after `fuel`
  iterations.

* `ADS1x15` / `ADS1115` / `ADS1015` (src/src/ADS1x15.h, src/src/ADS1x15.cpp):
  the configuration mirror and conversion pipeline; `float` arithmetic is
  modelled exactly over `ℚ`.
-/

/-- Conversion performed by assigning an `int` to a `uint8_t`. -/
def u8 (x : Int) : Nat := (x % 256).toNat

/-- Conversion performed by casting an `int` to a `uint16_t`. -/
def u16 (x : Int) : Nat := (x % 65536).toNat

/-- Conversion performed by casting an `int` to a `uint32_t`. -/
def u32 (x : Int) : Nat := (x % 4294967296).toNat

/-- Big-endian serialization of one register word of width `w` bytes;
from `wireUtil::writeAsBytes` (src/unnamed/part_000 lines 241 to 267):
the `switch (sizeof(DATATYPE))` fills the byte buffer most significant
byte first, with a zeroed buffer in the default case. -/
def writeAsBytes (w : Nat) (d : Nat) : List Nat :=
  if w = 4 then [d >>> 24 &&& 255, d >>> 16 &&& 255, d >>> 8 &&& 255, d &&& 255]
  else if w = 2 then [d >>> 8 &&& 255, d &&& 255]
  else if w = 1 then [d &&& 255]
  else List.replicate w 0

/-- Big-endian reassembly of one register word of width `w` bytes from the
`Wire.read()` oracle `rd`, starting at read index `i`; from
`wireUtil::readAsBytes` (src/unnamed/part_000 lines 274 to 297).  Each
term mirrors the C cast-and-shift: `(uint32_t)Wire.read() << 24` and so
on, with the intermediate unsigned truncation made explicit. -/
def readAsBytes (w : Nat) (rd : Nat → Int) (i : Nat) : Nat :=
  if w = 4 then
    (u32 (rd i) <<< 24) % 4294967296 ||| (u32 (rd (i + 1)) <<< 16) % 4294967296 |||
      (u32 (rd (i + 2)) <<< 8) % 4294967296 ||| u32 (rd (i + 3))
  else if w = 2 then
    (u16 (rd i) <<< 8) % 65536 ||| u16 (rd (i + 1))
  else if w = 1 then u8 (rd i)
  else 0

/-- Read oracle of a transport that delivers exactly the big-endian bytes
of the register word `d` (an echoing device). -/
def echoRd (w : Nat) (d : Nat) : Nat → Int :=
  fun i => Int.ofNat ((writeAsBytes w d).getD i 0)

/-- Oracle model of the Wire transport and the clock, as consumed by one
register operation of `wireUtil`.  `availAt k` is the value
`Wire.available()` returns at the k-th iteration of the polling loop,
`millisAt k` the value `millis()` returns at the deadline check of that
iteration, `startMillis` the value of the `millis()` call used to compute
the abort deadline, `rd i` the value returned by the i-th `Wire.read()`
call after the loop exits, and `endStatus` the status code returned by
`Wire.endTransmission()`. -/
structure Transport where
  endStatus : Nat
  startMillis : Nat
  millisAt : Nat → Nat
  availAt : Nat → Nat
  rd : Nat → Int

/-- Mutable state of a `wireUtil` object: the bound bus address, the
timeout budget `timeoutTime`, the `timeoutFlag`, and whether a timeout
handler or an error handler is registered (`attachTimeoutHandler` and
`attachErrorHandler` store nullable function pointers; only their
presence is observable in the model, invocations are recorded as
events). -/
structure WU where
  address : Nat
  timeoutTime : Nat
  timeoutFlag : Bool
  hasTimeoutHandler : Bool
  hasErrorHandler : Bool
deriving DecidableEq

/-- Observable actions of a register operation: bus traffic and
synchronous handler invocations, in program order. -/
inductive Event where
  | beginTx : Nat → Event
  | txByte : Nat → Event
  | endTx : Bool → Nat → Event
  | requestFrom : Nat → Nat → Event
  | timeoutCall : Event
  | errorCall : Nat → Event
deriving DecidableEq

/-- From `wireUtil::writeRegisters` (src/unnamed/part_000 lines 125 to
145): begin a transaction, write the register address byte, serialize
each of the first `len` buffer words (single-byte words are written
directly, wider words through `writeAsBytes`), end the transaction, and
dispatch on the returned status: zero yields `true`; otherwise the error
handler is invoked when registered and the call yields `false` either
way.  The returned triple is (return value, new state, event trace). -/
def writeRegisters (w : Nat) (s : WU) (t : Transport) (reg : Nat)
    (buffer : List Nat) (len : Nat) : Bool × WU × List Event :=
  let dataBytes := ((buffer.take len).map
    (fun d => if w = 1 then [d &&& 255] else writeAsBytes w d)).flatten
  let pre := Event.beginTx s.address :: Event.txByte (reg % 256) ::
    dataBytes.map Event.txByte
  if t.endStatus = 0 then (true, s, pre ++ [Event.endTx true t.endStatus])
  else if s.hasErrorHandler then
    (false, s, pre ++ [Event.endTx true t.endStatus, Event.errorCall t.endStatus])
  else (false, s, pre ++ [Event.endTx true t.endStatus])

/-- From `wireUtil::writeRegister` (src/unnamed/part_000 lines 111 to
115): a one-element call to `writeRegisters`. -/
def writeRegister (w : Nat) (s : WU) (t : Transport) (reg : Nat)
    (data : Nat) : Bool × WU × List Event :=
  writeRegisters w s t reg [data] 1

/-- The polling loop shared by `readRegister` and `readRegisters`: at
iteration `k` the loop first exits successfully when at least `needed`
bytes are available, otherwise reads the clock and aborts when the
deadline `abortTime` has passed.  `some true` is a successful exit,
`some false` a timeout, `none` fuel exhaustion (the loop still
spinning). -/
def pollAvail (t : Transport) (needed abortTime k fuel : Nat) : Option Bool :=
  match fuel with
  | 0 => none
  | f + 1 =>
    if needed ≤ t.availAt k then some true
    else if abortTime < t.millisAt k then some false
    else pollAvail t needed abortTime (k + 1) f

/-- From `wireUtil::readRegister` (src/unnamed/part_000 lines 153 to
175): address the register (ending the transaction without a stop
condition), request `sizeof(DATATYPE)` bytes, clear `timeoutFlag`,
compute the deadline `millis() + timeoutTime`, and poll until at least
one byte is available (`while (!Wire.available())`).  On deadline
expiry: set `timeoutFlag`, invoke the timeout handler when registered,
return 0.  Otherwise return the raw byte (width 1) or the big-endian
reassembly. -/
def readRegister (w fuel : Nat) (s : WU) (t : Transport) (reg : Nat) :
    Option (Nat × WU × List Event) :=
  let pre := [Event.beginTx s.address, Event.txByte (reg % 256),
    Event.endTx false t.endStatus, Event.requestFrom s.address (w % 256)]
  let s1 : WU := { s with timeoutFlag := false }
  let abortTime := t.startMillis + s.timeoutTime
  match pollAvail t 1 abortTime 0 fuel with
  | none => none
  | some false =>
    some (0, { s1 with timeoutFlag := true },
      pre ++ if s.hasTimeoutHandler then [Event.timeoutCall] else [])
  | some true =>
    some (if w = 1 then u8 (t.rd 0) else readAsBytes w t.rd 0, s1, pre)

/-- From `wireUtil::readRegisters` (src/unnamed/part_000 lines 185 to
216): address the register, clear `timeoutFlag`, compute the deadline,
zero the destination buffer (`memset(buffer, 0, len * sizeof(DATATYPE))`)
before polling, request `(uint8_t)(len * sizeof(DATATYPE))` bytes, and
poll until the full byte count is available
(`while (Wire.available() < bufferSize)`).  On deadline expiry: set
`timeoutFlag`, invoke the timeout handler when registered, return
`false` with the buffer still zeroed.  On success fill each slot with a
reassembled word and return `true`.  The result buffer is independent of
the incoming `buffer` contents because the zero fill overwrites all
`len` words. -/
def readRegisters (w fuel : Nat) (s : WU) (t : Transport) (reg : Nat)
    (buffer : List Nat) (len : Nat) :
    Option (Bool × List Nat × WU × List Event) :=
  let s1 : WU := { s with timeoutFlag := false }
  let abortTime := t.startMillis + s.timeoutTime
  let bufferSize := len * w
  let buf0 := List.replicate len 0
  let pre := [Event.beginTx s.address, Event.txByte (reg % 256),
    Event.endTx false t.endStatus, Event.requestFrom s.address (bufferSize % 256)]
  match pollAvail t bufferSize abortTime 0 fuel with
  | none => none
  | some false =>
    some (false, buf0, { s1 with timeoutFlag := true },
      pre ++ if s.hasTimeoutHandler then [Event.timeoutCall] else [])
  | some true =>
    some (true, (List.range len).map
      (fun i => if w = 1 then u8 (t.rd i) else readAsBytes w t.rd (i * w)),
      s1, pre)

/-- From `wireUtil::setRegisterBit` (src/unnamed/part_000 lines 226 to
234): read the register, set or clear bit `bit` of the value
(`tempReg |= (DATATYPE)(1 << bit)` or
`tempReg &= ~(DATATYPE)(1 << bit)`), and write the result back. -/
def setRegisterBit (w fuel : Nat) (s : WU) (t : Transport) (reg bit : Nat)
    (state : Bool) : Option (Bool × WU × List Event) :=
  match readRegister w fuel s t reg with
  | none => none
  | some (v, s1, ev1) =>
    let m := (1 <<< bit) % 2 ^ (8 * w)
    let tempReg := if state then v ||| m else v &&& ((2 ^ (8 * w) - 1) ^^^ m)
    let r2 := writeRegister w s1 t reg tempReg
    some (r2.1, r2.2.1, ev1 ++ r2.2.2)

/-- Transport of a device that acknowledges writes, makes its data
available immediately, and serves the big-endian bytes of the register
word `d` on read (the "faithfully stores and echoes" environment of the
spec's round-trip properties). -/
def echoTransport (w : Nat) (d : Nat) : Transport :=
  { endStatus := 0, startMillis := 0, millisAt := fun _ => 0,
    availAt := fun _ => w, rd := echoRd w d }

/-- One step of scanning a trace for the bytes of its last write
transaction: a `beginTx` restarts collection, a `txByte` appends. -/
def lastTxStep (acc : Option (List Nat)) (e : Event) : Option (List Nat) :=
  match e with
  | Event.beginTx _ => some []
  | Event.txByte b => acc.map (fun l => l ++ [b])
  | _ => acc

/-- Payload bytes of the last write transaction in a trace: the bytes
written between the last `beginTx` and the transaction end, with the
leading register-address byte dropped. -/
def lastTxPayload (evs : List Event) : List Nat :=
  ((evs.foldl lastTxStep none).getD []).drop 1

/-- Big-endian value of a byte list, as a faithful device stores it. -/
def bigEndianVal (bs : List Nat) : Nat :=
  bs.foldl (fun a b => a * 256 + b % 256) 0

/-- Register value a faithful device holds after processing the last
write transaction of a trace of word width `w`. -/
def storedAfter (w : Nat) (evs : List Event) : Nat :=
  bigEndianVal ((lastTxPayload evs).take w)

/-- Register map of the ADS1x15 family (src/src/ADS1x15.h lines 15 to
21). -/
def CONVERSION_REG : Nat := 0
def CONFIG_REG : Nat := 1

/-- Configuration-register field constants (src/src/ADS1x15.h). -/
def ADS1x15_OS : Nat := 1 <<< 15
def ADS1x15_MUX_MASK : Nat := 7 <<< 12
def ADS1x15_GAIN_MASK : Nat := 7 <<< 9

/-- Mux selections (src/src/ADS1x15.h lines 26 to 36). -/
inductive ADS1x15_MUX_t where
  | DIF01 | DIF03 | DIF13 | DIF23 | SE0 | SE1 | SE2 | SE3
deriving DecidableEq

def muxBits : ADS1x15_MUX_t → Nat
  | .DIF01 => 0 <<< 12
  | .DIF03 => 1 <<< 12
  | .DIF13 => 2 <<< 12
  | .DIF23 => 3 <<< 12
  | .SE0 => 4 <<< 12
  | .SE1 => 5 <<< 12
  | .SE2 => 6 <<< 12
  | .SE3 => 7 <<< 12

/-- Gain selections (src/src/ADS1x15.h lines 39 to 47). -/
inductive ADS1x15_GAIN_t where
  | GAIN_23 | GAIN_1 | GAIN_2 | GAIN_4 | GAIN_8 | GAIN_16
deriving DecidableEq

def gainBits : ADS1x15_GAIN_t → Nat
  | .GAIN_23 => 0 <<< 9
  | .GAIN_1 => 1 <<< 9
  | .GAIN_2 => 2 <<< 9
  | .GAIN_4 => 3 <<< 9
  | .GAIN_8 => 4 <<< 9
  | .GAIN_16 => 5 <<< 9

/-- The two concrete device classes deriving from `ADS1x15`. -/
inductive Variant where
  | ADS1115 | ADS1015
deriving DecidableEq

/-- Per-variant positive full-scale code (src/src/ADS1x15.h lines 180 and
206). -/
def getFullScaleBits : Variant → Nat
  | .ADS1115 => 0x7FFF
  | .ADS1015 => 0x07FF

/-- Per-variant post-read shift (src/src/ADS1x15.h lines 154 and 208):
the base class keeps the raw value, the ADS1015 discards the four
don't-care low bits. -/
def shiftConversion : Variant → Nat → Nat
  | .ADS1115, c => c
  | .ADS1015, c => c >>> 4

/-- Per-variant ADC bit width (src/src/ADS1x15.h lines 174 and 200). -/
def getADCbits : Variant → Nat
  | .ADS1115 => 16
  | .ADS1015 => 12

/-- State of an `ADS1x15` device profile object: the inherited `wireUtil`
state plus the local configuration mirror, cached gain, conversion delay
and calibration factor (src/src/ADS1x15.h lines 149 to 154).  `float`
fields are modelled over `ℚ`. -/
structure ADSState where
  wu : WU
  configRegister : Nat
  currentGain : ADS1x15_GAIN_t
  conversionDelay : Nat
  calibration : ℚ

/-- Default startup configuration word (src/src/ADS1x15.h line 112). -/
def defaultConfig : Nat := 0x8583

/-- State established by the `ADS1x15` constructor (src/src/ADS1x15.h
lines 123 to 130) followed by `begin()` binding the default address
0x48: timeout budget 1000 ms, timeout flag clear, calibration 1.0,
configuration mirror `defaultConfig`, gain `GAIN_2`, no handlers
registered. -/
def initADS : ADSState :=
  { wu := { address := 0x48, timeoutTime := 1000, timeoutFlag := false,
            hasTimeoutHandler := false, hasErrorHandler := false },
    configRegister := defaultConfig, currentGain := .GAIN_2,
    conversionDelay := 0, calibration := 1 }

/-- Conversion performed by casting a `uint16_t` expression to
`int16_t` (two's complement). -/
def toInt16 (x : Nat) : Int :=
  if x % 65536 < 32768 then (x % 65536 : Int) else (x % 65536 : Int) - 65536

/-- From `ADS1x15::setCalibration(float)` (src/src/ADS1x15.cpp lines 8 to
11). -/
def setCalibration (s : ADSState) (calibration : ℚ) : ADSState :=
  { s with calibration := calibration }

/-- From `ADS1x15::setCalibration(float, float)` (src/src/ADS1x15.cpp
lines 19 to 22): derive the factor from a two-resistor divider, guarded
by `if (r2 > 0.0)`. -/
def setCalibration2 (s : ADSState) (r1 r2 : ℚ) : ADSState :=
  if 0 < r2 then { s with calibration := (r1 + r2) / r2 } else s

/-- From `ADS1x15::setGain` (src/src/ADS1x15.cpp lines 29 to 34). -/
def setGain (s : ADSState) (g : ADS1x15_GAIN_t) : ADSState :=
  { s with
    currentGain := g
    configRegister :=
      s.configRegister &&& (65535 ^^^ ADS1x15_GAIN_MASK) ||| gainBits g }

/-- From `ADS1x15::getFullScaleV` (src/src/ADS1x15.cpp lines 41 to 51):
the full-scale voltage for the cached gain times the calibration
factor. -/
def getFullScaleV (s : ADSState) : ℚ :=
  (if s.currentGain = .GAIN_23 then 6.144
   else if s.currentGain = .GAIN_1 then 4.096
   else if s.currentGain = .GAIN_2 then 2.048
   else if s.currentGain = .GAIN_4 then 1.024
   else if s.currentGain = .GAIN_8 then 0.512
   else if s.currentGain = .GAIN_16 then 0.256
   else 0) * s.calibration

/-- From `ADS1x15::analogRead(ADS1x15_MUX_t)` (src/src/ADS1x15.cpp lines
92 to 103): update the mux bits and the one-shot bit in the local
configuration mirror, push the configuration word, busy-wait the
conversion delay, read and shift the conversion register, and
reinterpret a value above the positive full-scale code through
`(int16_t)(result | 0x8000)`. -/
def analogRead (v : Variant) (fuel : Nat) (s : ADSState) (t : Transport)
    (mux : ADS1x15_MUX_t) : Option (Int × ADSState × List Event) :=
  let cfg := s.configRegister &&& (65535 ^^^ ADS1x15_MUX_MASK) |||
    muxBits mux ||| ADS1x15_OS
  let s1 := { s with configRegister := cfg }
  let r1 := writeRegister 2 s1.wu t CONFIG_REG cfg
  match readRegister 2 fuel r1.2.1 t CONVERSION_REG with
  | none => none
  | some (raw, wu2, ev2) =>
    let result := shiftConversion v raw
    let value := if getFullScaleBits v < result then toInt16 (result ||| 0x8000)
      else toInt16 result
    some (value, { s1 with wu := wu2 }, r1.2.2 ++ ev2)

/-- From `ADS1x15::analogRead(uint8_t)` (src/src/ADS1x15.cpp lines 111 to
118): channels 0 to 3 dispatch to the single-ended mux selections and
the `int16_t` result is returned as `uint16_t`; any other channel
returns 0 directly. -/
def analogReadCh (v : Variant) (fuel : Nat) (s : ADSState) (t : Transport)
    (ch : Nat) : Option (Nat × ADSState × List Event) :=
  if ch = 0 then
    (analogRead v fuel s t .SE0).map (fun r => ((r.1 % 65536).toNat, r.2))
  else if ch = 1 then
    (analogRead v fuel s t .SE1).map (fun r => ((r.1 % 65536).toNat, r.2))
  else if ch = 2 then
    (analogRead v fuel s t .SE2).map (fun r => ((r.1 % 65536).toNat, r.2))
  else if ch = 3 then
    (analogRead v fuel s t .SE3).map (fun r => ((r.1 % 65536).toNat, r.2))
  else some (0, s, [])

/-- From `ADS1x15::analogReadVoltage` (src/src/ADS1x15.cpp lines 126 to
130): `getFullScaleV() * ((float)analogRead(ch) / (float)getFullScaleBits())`,
over exact rationals. -/
def analogReadVoltage (v : Variant) (fuel : Nat) (s : ADSState)
    (t : Transport) (ch : Nat) : Option (ℚ × ADSState × List Event) :=
  (analogReadCh v fuel s t ch).map (fun r =>
    (getFullScaleV s * ((r.1 : ℚ) / (getFullScaleBits v : ℚ)), r.2))

/-- Wire-util state with a registered timeout handler and a 5 ms timeout
budget, used as a concrete run input. -/
def wuTimeoutH : WU :=
  { address := 0x48, timeoutTime := 5, timeoutFlag := false,
    hasTimeoutHandler := true, hasErrorHandler := false }

/-- Transport whose availability is stuck at one byte forever while the
clock advances one millisecond per polling iteration; the single
buffered byte reads as 0x12 and every further `Wire.read()` returns
-1. -/
def oneByteStuckT : Transport :=
  { endStatus := 0, startMillis := 0, millisAt := fun k => k,
    availAt := fun _ => 1, rd := fun i => if i = 0 then 0x12 else -1 }

/-- Transport that never makes any byte available while the clock
advances one millisecond per polling iteration. -/
def neverAvailT : Transport :=
  { endStatus := 0, startMillis := 0, millisAt := fun k => k,
    availAt := fun _ => 0, rd := fun _ => -1 }

/-- Transport whose `Wire.endTransmission()` reports the non-zero status
code 2 (received NACK on transmit of address). -/
def statusTwoT : Transport :=
  { endStatus := 2, startMillis := 0, millisAt := fun k => k,
    availAt := fun _ => 2, rd := fun _ => -1 }

/-- Wire-util state with a registered error handler. -/
def wuErrorH : WU :=
  { address := 0x48, timeoutTime := 1000, timeoutFlag := false,
    hasTimeoutHandler := false, hasErrorHandler := true }
theorem u8_ofNat {b : Nat} (h : b < 256) : u8 (b : Int) = b := by
  unfold u8
  rw [Int.emod_eq_of_lt (Int.natCast_nonneg b) (by exact_mod_cast h)]
  simp

theorem u16_ofNat {b : Nat} (h : b < 65536) : u16 (b : Int) = b := by
  unfold u16
  rw [Int.emod_eq_of_lt (Int.natCast_nonneg b) (by exact_mod_cast h)]
  simp

theorem u32_ofNat {b : Nat} (h : b < 4294967296) : u32 (b : Int) = b := by
  unfold u32
  rw [Int.emod_eq_of_lt (Int.natCast_nonneg b) (by exact_mod_cast h)]
  simp

theorem and_255_lt (x : Nat) : x &&& 255 < 256 := by
  have h : x &&& 255 = x % 256 := by
    have h8 : (255 : Nat) = 2 ^ 8 - 1 := by norm_num
    rw [h8, Nat.and_pow_two_sub_one_eq_mod]
  omega

/-- Reassembling the serialized bytes of a 2-byte register word recovers
the word (big-endian round trip for `DATATYPE = uint16_t`). -/
theorem roundtrip2 {d : Nat} (hd : d < 65536) :
    readAsBytes 2 (echoRd 2 d) 0 = d := by
  unfold readAsBytes echoRd writeAsBytes
  norm_num
  rw [u16_ofNat (lt_trans (and_255_lt _) (by norm_num)),
    u16_ofNat (lt_trans (and_255_lt _) (by norm_num))]
  have h255 : (255 : Nat) = 2 ^ 8 - 1 := by norm_num
  have h65536 : (65536 : Nat) = 2 ^ 16 := by norm_num
  rw [h255, h65536]
  apply Nat.eq_of_testBit_eq
  intro i
  simp only [Nat.testBit_or, Nat.testBit_mod_two_pow, Nat.testBit_shiftLeft,
    Nat.testBit_and, Nat.testBit_shiftRight, Nat.testBit_two_pow_sub_one]
  rcases Nat.lt_or_ge i 8 with hi | hi
  · simp [Nat.not_le_of_lt hi, show i < 16 by omega, show i < 8 by omega]
  · rcases Nat.lt_or_ge i 16 with hi2 | hi2
    · have hge : 8 ≤ i := hi
      simp [hge, show i < 16 by omega, show i - 8 < 8 by omega, Nat.add_sub_cancel' hge]
    · have : d.testBit i = false := Nat.testBit_lt_two_pow (lt_of_lt_of_le hd (by
        calc (65536 : Nat) = 2 ^ 16 := by norm_num
        _ ≤ 2 ^ i := Nat.pow_le_pow_right (by norm_num) hi2))
      simp [this, show ¬ i < 16 by omega, show ¬ i < 8 by omega]

/-- Reassembling the serialized bytes of a 4-byte register word recovers
the word (big-endian round trip for `DATATYPE = uint32_t`). -/
theorem roundtrip4 {d : Nat} (hd : d < 4294967296) :
    readAsBytes 4 (echoRd 4 d) 0 = d := by
  unfold readAsBytes echoRd writeAsBytes
  norm_num
  rw [u32_ofNat (lt_trans (and_255_lt _) (by norm_num)),
    u32_ofNat (lt_trans (and_255_lt _) (by norm_num)),
    u32_ofNat (lt_trans (and_255_lt _) (by norm_num)),
    u32_ofNat (lt_trans (and_255_lt _) (by norm_num))]
  have h255 : (255 : Nat) = 2 ^ 8 - 1 := by norm_num
  have h2p32 : (4294967296 : Nat) = 2 ^ 32 := by norm_num
  rw [h255, h2p32]
  apply Nat.eq_of_testBit_eq
  intro i
  simp only [Nat.testBit_or, Nat.testBit_mod_two_pow, Nat.testBit_shiftLeft,
    Nat.testBit_and, Nat.testBit_shiftRight, Nat.testBit_two_pow_sub_one]
  rcases Nat.lt_or_ge i 8 with hi | hi
  · simp [show ¬ 8 ≤ i by omega, show ¬ 16 ≤ i by omega, show ¬ 24 ≤ i by omega,
      show i < 32 by omega, show i < 8 by omega]
  · rcases Nat.lt_or_ge i 16 with hi2 | hi2
    · simp [show 8 ≤ i by omega, show ¬ 16 ≤ i by omega, show ¬ 24 ≤ i by omega,
        show i < 32 by omega, show i - 8 < 8 by omega, Nat.add_sub_cancel' hi]
    · rcases Nat.lt_or_ge i 24 with hi3 | hi3
      · simp [show 8 ≤ i by omega, show 16 ≤ i by omega, show ¬ 24 ≤ i by omega,
          show i < 32 by omega, show i - 16 < 8 by omega, Nat.add_sub_cancel' hi2]
        cases d.testBit i <;> simp
      · rcases Nat.lt_or_ge i 32 with hi4 | hi4
        · simp [show 8 ≤ i by omega, show 16 ≤ i by omega, show 24 ≤ i by omega,
            show i < 32 by omega, show i - 24 < 8 by omega, Nat.add_sub_cancel' hi3]
          cases d.testBit i <;> simp
        · have : d.testBit i = false := Nat.testBit_lt_two_pow (lt_of_lt_of_le hd (by
            calc (4294967296 : Nat) = 2 ^ 32 := by norm_num
            _ ≤ 2 ^ i := Nat.pow_le_pow_right (by norm_num) hi4))
          simp [this, show ¬ i < 32 by omega, show ¬ i < 8 by omega]

theorem pollAvail_timeout (t : Transport) (needed abortTime : Nat) :
    ∀ j k fuel, j < fuel →
    (∀ i, i ≤ j → t.availAt (k + i) < needed) →
    (∀ i, i < j → t.millisAt (k + i) ≤ abortTime) →
    abortTime < t.millisAt (k + j) →
    pollAvail t needed abortTime k fuel = some false := by
  intro j
  induction j with
  | zero =>
    intro k fuel hfuel hav hpre hj
    match fuel, hfuel with
    | f + 1, _ =>
      unfold pollAvail
      rw [if_neg (by have h0 := hav 0 (by omega); rw [Nat.add_zero] at h0; omega),
        if_pos (by simpa using hj)]
  | succ j ih =>
    intro k fuel hfuel hav hpre hj
    match fuel, hfuel with
    | f + 1, _ =>
      unfold pollAvail
      rw [if_neg (by have h0 := hav 0 (by omega); rw [Nat.add_zero] at h0; omega),
        if_neg (by have h0 := hpre 0 (by omega); rw [Nat.add_zero] at h0; omega)]
      have h1 : ∀ i, i ≤ j → t.availAt (k + 1 + i) < needed := by
        intro i hi
        have := hav (i + 1) (by omega)
        rwa [show k + 1 + i = k + (i + 1) by omega]
      have h2 : ∀ i, i < j → t.millisAt (k + 1 + i) ≤ abortTime := by
        intro i hi
        have := hpre (i + 1) (by omega)
        rwa [show k + 1 + i = k + (i + 1) by omega]
      exact ih (k + 1) f (by omega) h1 h2
        (by rwa [show k + 1 + j = k + (j + 1) by omega])

theorem pollAvail_instant (t : Transport) (needed abortTime k f : Nat)
    (h : needed ≤ t.availAt k) :
    pollAvail t needed abortTime k (f + 1) = some true := by
  unfold pollAvail
  rw [if_pos h]

theorem readRegister_echo (fuel : Nat) (s : WU) (v reg : Nat)
    (hv : v < 65536) (hf : 0 < fuel) :
    readRegister 2 fuel s (echoTransport 2 v) reg =
      some (v, { s with timeoutFlag := false },
        [Event.beginTx s.address, Event.txByte (reg % 256),
         Event.endTx false 0, Event.requestFrom s.address 2]) := by
  obtain ⟨f, rfl⟩ : ∃ f, fuel = f + 1 := ⟨fuel - 1, by omega⟩
  have hp : pollAvail (echoTransport 2 v) 1
      ((echoTransport 2 v).startMillis + s.timeoutTime) 0 (f + 1) = some true :=
    pollAvail_instant _ _ _ _ _ (by norm_num [echoTransport])
  simp only [readRegister, hp]
  norm_num [echoTransport, roundtrip2 hv]

theorem bigEndianVal_writeAsBytes2 (x : Nat) (hx : x < 65536) :
    bigEndianVal (writeAsBytes 2 x) = x := by
  unfold bigEndianVal writeAsBytes
  norm_num
  have h1 : x >>> 8 &&& 255 = x / 256 % 256 := by
    rw [Nat.shiftRight_eq_div_pow]
    have h8 : (255 : Nat) = 2 ^ 8 - 1 := by norm_num
    rw [h8, Nat.and_pow_two_sub_one_eq_mod]
  have h2 : x &&& 255 = x % 256 := by
    have h8 : (255 : Nat) = 2 ^ 8 - 1 := by norm_num
    rw [h8, Nat.and_pow_two_sub_one_eq_mod]
  rw [h1, h2]
  omega

theorem foldl_lastTxStep_txBytes (bs : List Nat) :
    ∀ l, (bs.map Event.txByte).foldl lastTxStep (some l) = some (l ++ bs) := by
  induction bs with
  | nil => intro l; simp
  | cons b bs ih =>
    intro l
    simp only [List.map_cons, List.foldl_cons, lastTxStep, Option.map_some']
    rw [ih (l ++ [b])]
    simp

theorem lastTxPayload_write (ev1 : List Event) (a r st : Nat) (bs : List Nat) :
    lastTxPayload (ev1 ++ (Event.beginTx a :: Event.txByte r ::
      (bs.map Event.txByte ++ [Event.endTx true st]))) = bs := by
  unfold lastTxPayload
  rw [List.foldl_append, List.foldl_cons, List.foldl_cons, List.foldl_append]
  simp only [lastTxStep, Option.map_some', List.nil_append]
  rw [foldl_lastTxStep_txBytes bs [r]]
  simp [lastTxStep]

theorem lastTxPayload_readwrite (a r q st a2 r2 stc : Nat) (bs : List Nat) :
    lastTxPayload (Event.beginTx a :: Event.txByte r :: Event.endTx false st ::
      Event.requestFrom a q :: Event.beginTx a2 :: Event.txByte r2 ::
      (bs.map Event.txByte ++ [Event.endTx true stc])) = bs :=
  lastTxPayload_write [Event.beginTx a, Event.txByte r, Event.endTx false st,
    Event.requestFrom a q] a2 r2 stc bs

theorem storedAfter_setBit (s : WU) (reg fuel v : Nat) (hv : v < 65536)
    (hf : 0 < fuel) (st : Bool) :
    (setRegisterBit 2 fuel s (echoTransport 2 v) reg 3 st).map
      (fun r => storedAfter 2 r.2.2) =
      some (if st then v ||| 8 else v &&& 65527) := by
  rw [setRegisterBit, readRegister_echo fuel s v reg hv hf]
  have hm : ((1 <<< 3) % 2 ^ (8 * 2) : Nat) = 8 := by decide
  have hc : ((2 ^ (8 * 2) - 1 : Nat) ^^^ 8) = 65527 := by decide
  have htemp : (if st then v ||| (1 <<< 3) % 2 ^ (8 * 2)
      else v &&& ((2 ^ (8 * 2) - 1) ^^^ (1 <<< 3) % 2 ^ (8 * 2))) =
      (if st then v ||| 8 else v &&& 65527) := by rw [hm, hc]
  simp only [writeRegister, writeRegisters, echoTransport, htemp]
  have hlt : (if st then v ||| 8 else v &&& 65527) < 65536 := by
    cases st with
    | true =>
      show v ||| 8 < 65536
      have h2 : v ||| 8 < 2 ^ 16 := Nat.or_lt_two_pow (by omega) (by norm_num)
      omega
    | false =>
      show v &&& 65527 < 65536
      exact lt_of_le_of_lt Nat.and_le_left hv
  simp only [if_true, Option.map_some', List.take_succ_cons, List.take_nil, List.map_cons,
    List.map_nil, List.flatten_cons, List.flatten_nil, List.append_nil, List.cons_append,
    List.nil_append, Option.some.injEq, show ((2 : Nat) = 1) = False by norm_num, if_false]
  simp only [storedAfter, lastTxPayload_readwrite]
  rw [show (writeAsBytes 2 (if st = true then v ||| 8 else v &&& 65527)).take 2 =
    writeAsBytes 2 (if st = true then v ||| 8 else v &&& 65527) by
      simp [writeAsBytes]]
  exact bigEndianVal_writeAsBytes2 _ hlt

theorem or8_and_mask (v : Nat) (hv : v < 65536) (hb : v.testBit 3 = false) :
    (v ||| 8) &&& 65527 = v := by
  apply Nat.eq_of_testBit_eq
  intro i
  have h8 : (8 : Nat) = 2 ^ 3 := by norm_num
  have hmv : (65527 : Nat) = (2 ^ 16 - 1) ^^^ 2 ^ 3 := by decide
  rw [h8, hmv]
  simp only [Nat.testBit_and, Nat.testBit_or, Nat.testBit_xor, Nat.testBit_two_pow,
    Nat.testBit_two_pow_sub_one]
  by_cases h3 : i = 3
  · subst h3
    simp [hb]
  · rcases Nat.lt_or_ge i 16 with h16 | h16
    · simp [show (3 : Nat) ≠ i from fun h => h3 h.symm, h16]
    · have hz : v.testBit i = false := Nat.testBit_lt_two_pow (lt_of_lt_of_le hv (by
        calc (65536 : Nat) = 2 ^ 16 := by norm_num
        _ ≤ 2 ^ i := Nat.pow_le_pow_right (by norm_num) h16))
      simp [show (3 : Nat) ≠ i from fun h => h3 h.symm, show ¬ i < 16 by omega, hz]

theorem count_errorCall_map_txByte (l : List Nat) (e : Nat) :
    ((l.map Event.txByte).count (Event.errorCall e)) = 0 := by
  rw [List.count_eq_zero]
  intro h
  rcases List.mem_map.mp h with ⟨b, _, hb⟩
  exact absurd hb (by simp)

theorem count_timeoutCall_map_txByte (l : List Nat) :
    ((l.map Event.txByte).count Event.timeoutCall) = 0 := by
  rw [List.count_eq_zero]
  intro h
  rcases List.mem_map.mp h with ⟨b, _, hb⟩
  exact absurd hb (by simp)

/-- C2: multi-byte register serialization is strictly big-endian: the
2-byte word 0x1234 is emitted as [0x12, 0x34] and the 4-byte word
0x12345678 as [0x12, 0x34, 0x56, 0x78]; reassembly on read is the
inverse, most significant byte first (round trip through the serialized
bytes recovers every word of the respective width). -/
theorem C2_bigEndian_serialization :
    writeAsBytes 2 0x1234 = [0x12, 0x34] ∧
    writeAsBytes 4 0x12345678 = [0x12, 0x34, 0x56, 0x78] ∧
    (∀ d : Nat, d < 65536 → readAsBytes 2 (echoRd 2 d) 0 = d) ∧
    (∀ d : Nat, d < 4294967296 → readAsBytes 4 (echoRd 4 d) 0 = d) :=
  ⟨by decide, by decide, fun _ hd => roundtrip2 hd, fun _ hd => roundtrip4 hd⟩

theorem C2_bigEndian_serialization_witness :
    readAsBytes 2 (echoRd 2 0x1234) 0 = 0x1234 ∧
    readAsBytes 4 (echoRd 4 0x12345678) 0 = 0x12345678 :=
  ⟨C2_bigEndian_serialization.2.2.1 0x1234 (by decide),
   C2_bigEndian_serialization.2.2.2 0x12345678 (by decide)⟩

/-- C7: writeRegister(addr, value) is observationally equivalent to
writeRegisters(addr, buffer, 1) on a one-element buffer: same return
value, same state, same emitted bus bytes and handler invocations (the
source defines writeRegister as exactly this call). -/
theorem C7_writeRegister_delegates (w : Nat) (s : WU) (t : Transport)
    (reg data : Nat) :
    writeRegister w s t reg data = writeRegisters w s t reg [data] 1 := rfl

/-- C5: for every register address and value, a non-zero
end-of-transmission status makes writeRegister return false and invoke
the error handler exactly once with that raw status when registered (and
never otherwise), and never invoke the timeout handler; a zero status
makes it return true with no handler invocation. -/
theorem C5_writeRegister_nack (w : Nat) (s : WU) (t : Transport)
    (reg data : Nat) :
    (t.endStatus ≠ 0 →
      (writeRegister w s t reg data).1 = false ∧
      (writeRegister w s t reg data).2.2.count (Event.errorCall t.endStatus) =
        (if s.hasErrorHandler then 1 else 0) ∧
      (writeRegister w s t reg data).2.2.count Event.timeoutCall = 0) ∧
    (t.endStatus = 0 →
      (writeRegister w s t reg data).1 = true ∧
      (writeRegister w s t reg data).2.2.count Event.timeoutCall = 0 ∧
      ∀ e : Nat, (writeRegister w s t reg data).2.2.count (Event.errorCall e) = 0) := by
  unfold writeRegister writeRegisters
  by_cases h0 : t.endStatus = 0
  · refine ⟨fun hne => absurd h0 hne, fun _ => ?_⟩
    simp only [h0, if_pos]
    refine ⟨trivial, ?_, fun e => ?_⟩
    · simp [List.count_append, List.count_cons, count_timeoutCall_map_txByte]
    · simp [List.count_append, List.count_cons, count_errorCall_map_txByte]
  · refine ⟨fun _ => ?_, fun he => absurd he h0⟩
    by_cases hh : s.hasErrorHandler
    · simp only [if_neg h0, if_pos hh]
      refine ⟨trivial, ?_, ?_⟩
      · simp [List.count_append, List.count_cons, count_errorCall_map_txByte, hh]
      · simp [List.count_append, List.count_cons, count_timeoutCall_map_txByte]
    · simp only [if_neg h0, if_neg hh]
      refine ⟨trivial, ?_, ?_⟩
      · simp [List.count_append, List.count_cons, count_errorCall_map_txByte, hh]
      · simp [List.count_append, List.count_cons, count_timeoutCall_map_txByte]

theorem C5_writeRegister_nack_witness :
    (writeRegister 2 wuErrorH statusTwoT 1 0x1234).1 = false ∧
    (writeRegister 2 wuErrorH statusTwoT 1 0x1234).2.2.count (Event.errorCall 2) = 1 ∧
    (writeRegister 2 wuErrorH statusTwoT 1 0x1234).2.2.count Event.timeoutCall = 0 := by
  have h := (C5_writeRegister_nack 2 wuErrorH statusTwoT 1 0x1234).1 (by decide)
  exact ⟨h.1, by simpa using h.2.1, h.2.2⟩

/-- C9: the two-argument setCalibration sets the calibration factor to
(r1 + r2) / r2 whenever r2 is strictly positive and leaves the state
unchanged (performing no division) whenever r2 is zero or negative. -/
theorem C9_setCalibration_guard (s : ADSState) (r1 r2 : ℚ) :
    (0 < r2 → (setCalibration2 s r1 r2).calibration = (r1 + r2) / r2) ∧
    (r2 ≤ 0 → setCalibration2 s r1 r2 = s) := by
  constructor
  · intro h
    rw [setCalibration2, if_pos h]
  · intro h
    rw [setCalibration2, if_neg (not_lt.mpr h)]

theorem C9_setCalibration_guard_witness :
    (setCalibration2 initADS 100 50).calibration = (100 + 50) / 50 ∧
    setCalibration2 initADS 100 0 = initADS :=
  ⟨(C9_setCalibration_guard initADS 100 50).1 (by norm_num),
   (C9_setCalibration_guard initADS 100 0).2 (by norm_num)⟩

/-- C10: the channel-indexed analogRead returns 0 for every channel
index above 3 without any bus event and without touching the device
state; channels 0 through 3 dispatch to the single-ended mux
selections. -/
theorem C10_channel_guard (v : Variant) (fuel : Nat) (s : ADSState)
    (t : Transport) (ch : Nat) (h : 3 < ch) :
    analogReadCh v fuel s t ch = some (0, s, []) ∧
    analogReadCh v fuel s t 0 =
      (analogRead v fuel s t .SE0).map (fun r => ((r.1 % 65536).toNat, r.2)) ∧
    analogReadCh v fuel s t 1 =
      (analogRead v fuel s t .SE1).map (fun r => ((r.1 % 65536).toNat, r.2)) ∧
    analogReadCh v fuel s t 2 =
      (analogRead v fuel s t .SE2).map (fun r => ((r.1 % 65536).toNat, r.2)) ∧
    analogReadCh v fuel s t 3 =
      (analogRead v fuel s t .SE3).map (fun r => ((r.1 % 65536).toNat, r.2)) := by
  refine ⟨?_, rfl, rfl, rfl, rfl⟩
  unfold analogReadCh
  rw [if_neg (by omega), if_neg (by omega), if_neg (by omega), if_neg (by omega)]

theorem C10_channel_guard_witness :
    analogReadCh .ADS1115 1 initADS (echoTransport 2 0) 4 = some (0, initADS, []) :=
  (C10_channel_guard .ADS1115 1 initADS (echoTransport 2 0) 4 (by omega)).1

theorem writeRegisters_state (w : Nat) (s : WU) (t : Transport) (reg : Nat)
    (buffer : List Nat) (len : Nat) :
    (writeRegisters w s t reg buffer len).2.1 = s := by
  unfold writeRegisters
  by_cases h : t.endStatus = 0 <;> by_cases hh : s.hasErrorHandler <;> simp [h, hh]

/-- C1 is refuted on this run: with a two-byte register word, a
transport stuck at one available byte of the two expected, and the
deadline passing (budget 5 ms, clock advancing each iteration),
readRegister does not time out: it exits the polling loop on the first
iteration (the loop waits only for `Wire.available()` to be non-zero),
reassembles the word from one real byte and a -1 from the drained
buffer, and returns 65535 with the timeout flag clear and the registered
timeout handler never invoked -- although the expected byte count never
became available before the deadline. -/
theorem C1_counterexample :
    (readRegister 2 20 wuTimeoutH oneByteStuckT 1).map
      (fun r => (r.1, r.2.1.timeoutFlag, r.2.2.count Event.timeoutCall)) =
      some (65535, false, 0) ∧
    wuTimeoutH.hasTimeoutHandler = true ∧ (65535 : Nat) ≠ 0 := by decide

/-- C1 (amended): for every register address, readRegister resets the
Timeout Flag to false and computes a deadline equal to the clock reading
plus the Timeout Budget at the moment polling begins; if NO byte at all
(rather than the expected byte count) becomes available before the
deadline elapses, it sets the Timeout Flag to true, invokes the
registered timeout handler if and only if one is registered, and
returns the zero value of RegisterWord. -/
theorem C1_amended (w fuel : Nat) (s : WU) (t : Transport) (reg j : Nat)
    (hav : ∀ i, i ≤ j → t.availAt i = 0)
    (hpre : ∀ i, i < j → t.millisAt i ≤ t.startMillis + s.timeoutTime)
    (hj : t.startMillis + s.timeoutTime < t.millisAt j)
    (hfuel : j < fuel) :
    readRegister w fuel s t reg =
      some (0, { s with timeoutFlag := true },
        [Event.beginTx s.address, Event.txByte (reg % 256),
         Event.endTx false t.endStatus, Event.requestFrom s.address (w % 256)] ++
        (if s.hasTimeoutHandler then [Event.timeoutCall] else [])) := by
  have hp : pollAvail t 1 (t.startMillis + s.timeoutTime) 0 fuel = some false := by
    apply pollAvail_timeout t 1 _ j 0 fuel hfuel
    · intro i hi
      rw [Nat.zero_add, hav i hi]
      omega
    · intro i hi
      rw [Nat.zero_add]
      exact hpre i hi
    · rw [Nat.zero_add]
      exact hj
  simp only [readRegister, hp]

theorem C1_amended_witness :
    readRegister 2 10 wuTimeoutH neverAvailT 1 =
      some (0, { wuTimeoutH with timeoutFlag := true },
        [Event.beginTx 0x48, Event.txByte 1, Event.endTx false 0,
         Event.requestFrom 0x48 2] ++ [Event.timeoutCall]) :=
  C1_amended 2 10 wuTimeoutH neverAvailT 1 6 (fun _ _ => rfl)
    (fun _ hi => Nat.le_of_lt_succ hi) (by decide) (by decide)

/-- C4: for every register address, destination buffer and count,
readRegisters zero-fills the destination before polling (the result
buffer does not depend on the incoming contents), and when the transport
never makes the requested byte count available while the deadline
passes, it returns false with the buffer all-zero, the Timeout Flag
true, and the timeout handler invoked exactly once if registered and not
at all otherwise. -/
theorem C4_readRegisters_timeout (w fuel : Nat) (s : WU) (t : Transport)
    (reg : Nat) (buffer : List Nat) (len j : Nat)
    (hav : ∀ i, i ≤ j → t.availAt i < len * w)
    (hpre : ∀ i, i < j → t.millisAt i ≤ t.startMillis + s.timeoutTime)
    (hj : t.startMillis + s.timeoutTime < t.millisAt j)
    (hfuel : j < fuel) :
    readRegisters w fuel s t reg buffer len =
      some (false, List.replicate len 0, { s with timeoutFlag := true },
        [Event.beginTx s.address, Event.txByte (reg % 256),
         Event.endTx false t.endStatus, Event.requestFrom s.address (len * w % 256)] ++
        (if s.hasTimeoutHandler then [Event.timeoutCall] else [])) ∧
    (∀ x ∈ List.replicate len 0, x = 0) ∧
    (readRegisters w fuel s t reg buffer len).map
      (fun r => r.2.2.2.count Event.timeoutCall) =
      some (if s.hasTimeoutHandler then 1 else 0) := by
  have hp : pollAvail t (len * w) (t.startMillis + s.timeoutTime) 0 fuel =
      some false := by
    apply pollAvail_timeout t (len * w) _ j 0 fuel hfuel
    · intro i hi
      rw [Nat.zero_add]
      exact hav i hi
    · intro i hi
      rw [Nat.zero_add]
      exact hpre i hi
    · rw [Nat.zero_add]
      exact hj
  have hmain : readRegisters w fuel s t reg buffer len =
      some (false, List.replicate len 0, { s with timeoutFlag := true },
        [Event.beginTx s.address, Event.txByte (reg % 256),
         Event.endTx false t.endStatus, Event.requestFrom s.address (len * w % 256)] ++
        (if s.hasTimeoutHandler then [Event.timeoutCall] else [])) := by
    simp only [readRegisters, hp]
  refine ⟨hmain, fun x hx => List.eq_of_mem_replicate hx, ?_⟩
  rw [hmain]
  cases hh : s.hasTimeoutHandler <;>
    simp [List.count_append, List.count_cons]

theorem C4_readRegisters_timeout_witness :
    readRegisters 2 10 wuTimeoutH oneByteStuckT 1 [7, 7] 2 =
      some (false, [0, 0], { wuTimeoutH with timeoutFlag := true },
        [Event.beginTx 0x48, Event.txByte 1, Event.endTx false 0,
         Event.requestFrom 0x48 4] ++ [Event.timeoutCall]) :=
  (C4_readRegisters_timeout 2 10 wuTimeoutH oneByteStuckT 1 [7, 7] 2 6
    (fun _ _ => by show (1 : Nat) < 4; omega)
    (fun _ hi => Nat.le_of_lt_succ hi) (by decide) (by decide)).1

/-- C6 is refuted on this run: against a faithful echoing device whose
register initially holds 8 (bit 3 already set), setRegisterBit(reg, 3,
true) writes back 8 (no visible change) and the following
setRegisterBit(reg, 3, false) writes back 0, so the sequence ends with
the register holding 0 instead of the original 8 -- the toggle
round-trip does not restore a value whose bit 3 was already set. -/
theorem C6_counterexample :
    (setRegisterBit 2 5 wuTimeoutH (echoTransport 2 8) 1 3 true).map
      (fun r => storedAfter 2 r.2.2) = some 8 ∧
    (setRegisterBit 2 5 wuTimeoutH (echoTransport 2 8) 1 3 false).map
      (fun r => storedAfter 2 r.2.2) = some 0 ∧
    (0 : Nat) ≠ 8 := by decide

/-- C6 (amended): for every register address, if bit 3 of the original
register value is clear, then setRegisterBit(reg, 3, true) followed by
setRegisterBit(reg, 3, false) restores the original value bit-for-bit
(provided no read times out and the transport faithfully stores and
echoes written values); if bit 3 was already set, the sequence clears
it. -/
theorem C6_amended (s : WU) (reg fuel v : Nat) (hv : v < 65536)
    (hb : v.testBit 3 = false) (hf : 0 < fuel) :
    (setRegisterBit 2 fuel s (echoTransport 2 v) reg 3 true).map
      (fun r => storedAfter 2 r.2.2) = some (v ||| 8) ∧
    (setRegisterBit 2 fuel s (echoTransport 2 (v ||| 8)) reg 3 false).map
      (fun r => storedAfter 2 r.2.2) = some v := by
  have h1 := storedAfter_setBit s reg fuel v hv hf true
  have hvo : v ||| 8 < 65536 := by
    have h2 : v ||| 8 < 2 ^ 16 := Nat.or_lt_two_pow (by omega) (by norm_num)
    omega
  have h2 := storedAfter_setBit s reg fuel (v ||| 8) hvo hf false
  have h3 : (v ||| 8) &&& 65527 = v := or8_and_mask v hv hb
  exact ⟨by simpa using h1, by simpa [h3] using h2⟩

theorem C6_amended_witness :
    (setRegisterBit 2 5 wuTimeoutH (echoTransport 2 1) 1 3 true).map
      (fun r => storedAfter 2 r.2.2) = some 9 ∧
    (setRegisterBit 2 5 wuTimeoutH (echoTransport 2 9) 1 3 false).map
      (fun r => storedAfter 2 r.2.2) = some 1 :=
  C6_amended wuTimeoutH 1 5 1 (by decide) (by decide) (by decide)

/-- C3 at the failing input: for the ADS1015 (conversion register raw
value 0x8000, i.e. the 12-bit two's-complement code 0x800 = -2048 after
the right shift by 4), analogRead computes (int16_t)(0x800 | 0x8000) =
-30720, whereas the two's-complement sign extension of the 12-bit code
(0x800 | 0xF000 as a 16-bit word) is -2048; the returned value is
negative but is not the sign-extended value of the shifted code. -/
theorem C3_signExtension_failing_input :
    (analogRead .ADS1015 5 initADS (echoTransport 2 0x8000) .SE0).map
      (fun r => r.1) = some (-30720) ∧
    toInt16 (0x800 ||| 0xF000) = -2048 ∧
    ((-30720 : Int) ≠ -2048) := by decide

theorem analogRead_echo (v : Variant) (fuel : Nat) (s : ADSState) (raw : Nat)
    (mux : ADS1x15_MUX_t) (hf : 0 < fuel) (hraw : raw < 65536) :
    ∃ s2 ev, analogRead v fuel s (echoTransport 2 raw) mux =
      some ((if getFullScaleBits v < shiftConversion v raw
        then toInt16 (shiftConversion v raw ||| 0x8000)
        else toInt16 (shiftConversion v raw)), s2, ev) := by
  unfold analogRead
  simp only [writeRegister, writeRegisters_state]
  rw [readRegister_echo fuel _ raw CONVERSION_REG hraw hf]
  exact ⟨_, _, rfl⟩

theorem voltage_fullscale_mux (s : ADSState) (v : Variant) (raw fuel : Nat)
    (mux : ADS1x15_MUX_t) (hf : 0 < fuel) (hraw : raw < 65536)
    (hfs : shiftConversion v raw = getFullScaleBits v) :
    (((analogRead v fuel s (echoTransport 2 raw) mux).map
      (fun r => ((r.1 % 65536).toNat, r.2))).map
      (fun r => (getFullScaleV s * ((r.1 : ℚ) / (getFullScaleBits v : ℚ)), r.2))).map
      (fun r => r.1) = some (getFullScaleV s) := by
  obtain ⟨s2, ev, he⟩ := analogRead_echo v fuel s raw mux hf hraw
  rw [hfs, if_neg (lt_irrefl _)] at he
  rw [he]
  simp only [Option.map_some']
  cases v
  · norm_num [toInt16, getFullScaleBits, show Int.toNat 32767 = 32767 from rfl]
  · norm_num [toInt16, getFullScaleBits, show Int.toNat 2047 = 2047 from rfl]

/-- C8: with the gain code for the plus-minus 2.048 V range selected
(GAIN_2), a conversion whose shifted raw code equals exactly the
device's positive full-scale code yields a computed voltage of
analogReadVoltage equal to 2.048 times the calibration factor; the
calibration factor defaults to 1; and in general the computed voltage is
the full-scale voltage for the current gain (which already carries the
calibration factor) times the ratio of the raw reading to the
full-scale code. -/
theorem C8_gain2_fullscale (s : ADSState) (v : Variant) (raw ch fuel : Nat)
    (hg : s.currentGain = .GAIN_2) (hch : ch ≤ 3) (hf : 0 < fuel)
    (hraw : raw < 65536)
    (hfs : shiftConversion v raw = getFullScaleBits v) :
    (analogReadVoltage v fuel s (echoTransport 2 raw) ch).map (fun r => r.1) =
      some (2.048 * s.calibration) ∧
    getFullScaleV s = 2.048 * s.calibration ∧
    initADS.calibration = 1 ∧
    analogReadVoltage v fuel s (echoTransport 2 raw) ch =
      (analogReadCh v fuel s (echoTransport 2 raw) ch).map (fun r =>
        (getFullScaleV s * ((r.1 : ℚ) / (getFullScaleBits v : ℚ)), r.2)) := by
  have hgf : getFullScaleV s = 2.048 * s.calibration := by
    simp [getFullScaleV, hg]
  refine ⟨?_, hgf, rfl, rfl⟩
  interval_cases ch
  · simpa [analogReadVoltage, analogReadCh, hgf] using
      voltage_fullscale_mux s v raw fuel ADS1x15_MUX_t.SE0 hf hraw hfs
  · simpa [analogReadVoltage, analogReadCh, hgf] using
      voltage_fullscale_mux s v raw fuel ADS1x15_MUX_t.SE1 hf hraw hfs
  · simpa [analogReadVoltage, analogReadCh, hgf] using
      voltage_fullscale_mux s v raw fuel ADS1x15_MUX_t.SE2 hf hraw hfs
  · simpa [analogReadVoltage, analogReadCh, hgf] using
      voltage_fullscale_mux s v raw fuel ADS1x15_MUX_t.SE3 hf hraw hfs

theorem C8_gain2_fullscale_witness :
    (analogReadVoltage .ADS1115 1 initADS (echoTransport 2 0x7FFF) 0).map
      (fun r => r.1) = some (2.048 * initADS.calibration) :=
  (C8_gain2_fullscale initADS .ADS1115 0x7FFF 0 1 rfl (by decide) (by decide)
    (by decide) rfl).1
